import Mathlib

/-!
FTP-to-NextCloud gateway: the filesystem adapter and its file handles.

A shallow embedding of `driver.go` and `fileinfo.go`.

* Go strings and byte slices are sequences of bytes.
* The WebDAV client (`gowebdav.Client`) is an external collaborator: it is a
  parameter of the model, a record of functions over a remote store state.
* Every call made on the client is recorded, in order, in the `calls` log of
  the `World`, so that "makes exactly one remote call" is a statement about
  that log.
* Go's `(value, error)` results with a pointer value are `Except`, a lone
  `error` is an `Option GoError` (`none` is `nil`), and `(int, error)` is a
  pair. The lookup of the client keeps Go's pair, entry and error each
  possibly nil, and `Stat`, which dereferences the entry, ends in an
  `Outcome`: a value, an error or a panic.
* Audit logging (`fs.logger.Printf`) has no influence on results or on the
  remote store and is left out.
-/

namespace NextCloudFtp

/-! ## Go values -/

/-- A byte of a Go string or byte slice. Real data is below 256; no operation
of the program does arithmetic on bytes, they are only compared. -/
abbrev Byte := Nat

/-- A Go byte slice, `[]byte`. -/
abbrev Bytes := List Byte

/-- A Go `string`: an immutable sequence of bytes. -/
abbrev GoString := List Byte

/-- The bytes of an ASCII string literal. -/
def ascii (s : String) : GoString := s.data.map Char.toNat

/-- A Go `error` value: one made by `errors.New`, or one that wraps another
error (`fmt.Errorf` with the `%w` verb). Errors of the remote client are
arbitrary values of this type. -/
inductive GoError where
  | errorString (s : GoString)
  | wrapError (msg : GoString) (err : GoError)
  deriving DecidableEq

/-- The method `Error()` of an error: its message. -/
def GoError.Error : GoError → GoString
  | .errorString s => s
  | .wrapError msg _ => msg

/-- The method `Unwrap()` of an error: the wrapped error, if any. -/
def GoError.Unwrap : GoError → Option GoError
  | .errorString _ => none
  | .wrapError _ err => some err

/-- Go `errors.New`. -/
def errors.New (text : String) : GoError := .errorString (ascii text)

/-- Go `fmt.Errorf(lead + "%w", err)`: the message is the literal text
followed by the message of `err`, and the result wraps `err`. -/
def fmt.Errorf (lead : String) (err : GoError) : GoError :=
  .wrapError (ascii lead ++ err.Error) err

deriving instance DecidableEq for Except

/-- How a call that may panic ends: with a value (`(v, nil)`), with an error
(`(nil, err)`), or in a run-time panic that returns nothing to the caller. -/
inductive Outcome (α : Type) where
  | ok (v : α)
  | error (err : GoError)
  | panic
  deriving DecidableEq

/-- Go `os.FileMode` (an unsigned 32-bit value, never computed with here). -/
abbrev FileMode := Nat

/-- Go `time.Time`, only ever passed through. -/
abbrev Time := Int

/-- Go `os.O_RDONLY`. -/
def O_RDONLY : Int := 0
/-- Go `os.O_WRONLY`. -/
def O_WRONLY : Int := 1
/-- Go `os.O_RDWR`. -/
def O_RDWR : Int := 2
/-- Go `os.O_CREATE` (`syscall.O_CREAT`, value on Linux). -/
def O_CREATE : Int := 0x40
/-- Go `os.O_TRUNC` (`syscall.O_TRUNC`, value on Linux). -/
def O_TRUNC : Int := 0x200

/-! ## Go standard library: `path.Base`, `strings.TrimSuffix` -/

/-- The byte `'/'`. -/
def slash : Byte := 47

/-- The loop of `path.Base`:
`for len(path) > 0 && path[len(path)-1] == '/' { path = path[0 : len(path)-1] }`,
run for at most `fuel` iterations. -/
def stripLoop : Nat → GoString → GoString
  | 0, path => path
  | fuel + 1, path =>
    if path.length > 0 ∧ path.getLast? = some slash then
      stripLoop fuel path.dropLast
    else path

/-- Go `strings.LastIndexByte` restricted to the indices below `n`: the scan
`for i := n - 1; i >= 0; i-- { if s[i] == c { return i } }; return -1`. -/
def lastIndexBelow (s : GoString) (c : Byte) : Nat → Int
  | 0 => -1
  | n + 1 => if s[n]? = some c then (n : Int) else lastIndexBelow s c n

/-- Go `strings.LastIndexByte`. -/
def LastIndexByte (s : GoString) (c : Byte) : Int := lastIndexBelow s c s.length

/-- Go `path.Base`: the last element of a path. -/
def Base (path : GoString) : GoString :=
  if path = [] then ascii "."
  else
    -- Strip trailing slashes.
    let path := stripLoop path.length path
    -- Find the last element.
    let i := LastIndexByte path slash
    let path := if i ≥ 0 then path.drop (i + 1).toNat else path
    -- If empty now, it had only slashes.
    if path = [] then ascii "/" else path

/-- Go `strings.HasSuffix`. -/
def HasSuffix (s suffix : GoString) : Bool :=
  decide (s.length ≥ suffix.length) && decide (s.drop (s.length - suffix.length) = suffix)

/-- Go `strings.TrimSuffix`. -/
def TrimSuffix (s suffix : GoString) : GoString :=
  if HasSuffix s suffix then s.take (s.length - suffix.length) else s

/-! ## File information (`fileinfo.go`) -/

/-- What the methods of an `os.FileInfo` returned by the remote client give. -/
structure RemoteInfo where
  Name : GoString
  Size : Int
  Mode : FileMode
  ModTime : Time
  IsDir : Bool
  deriving DecidableEq

/-- The struct `nextcloudFileInfo`. -/
structure nextcloudFileInfo where
  name : GoString
  size : Int
  mode : FileMode
  modTime : Time
  isDir : Bool
  deriving DecidableEq

/-- Method `nextcloudFileInfo.Name`. -/
def nextcloudFileInfo.Name (fi : nextcloudFileInfo) : GoString := fi.name
/-- Method `nextcloudFileInfo.Size`. -/
def nextcloudFileInfo.Size (fi : nextcloudFileInfo) : Int := fi.size
/-- Method `nextcloudFileInfo.Mode`. -/
def nextcloudFileInfo.Mode (fi : nextcloudFileInfo) : FileMode := fi.mode
/-- Method `nextcloudFileInfo.ModTime`. -/
def nextcloudFileInfo.ModTime (fi : nextcloudFileInfo) : Time := fi.modTime
/-- Method `nextcloudFileInfo.IsDir`. -/
def nextcloudFileInfo.IsDir (fi : nextcloudFileInfo) : Bool := fi.isDir

/-! ## The remote store client and the world -/

/-- The operations of the remote store client (`gowebdav.Client`) that the
adapter calls, over a remote store state `σ`; `S` is the state of an open
read stream (`io.ReadCloser`). `Stat` gives Go's pair `(os.FileInfo, error)`
as it is: the entry may be nil (`none`) whether or not the error is nil. -/
structure Client (σ S : Type) where
  Stat : GoString → σ → (Option RemoteInfo × Option GoError) × σ
  ReadDir : GoString → σ → Except GoError (List RemoteInfo) × σ
  ReadStream : GoString → σ → Except GoError S × σ
  Write : GoString → Bytes → FileMode → σ → Option GoError × σ
  Mkdir : GoString → FileMode → σ → Option GoError × σ
  MkdirAll : GoString → FileMode → σ → Option GoError × σ
  Remove : GoString → σ → Option GoError × σ
  RemoveAll : GoString → σ → Option GoError × σ
  Rename : GoString → GoString → Bool → σ → Option GoError × σ

/-- A call on the remote store client, with its arguments. -/
inductive RemoteCall where
  | Stat (name : GoString)
  | ReadDir (name : GoString)
  | ReadStream (name : GoString)
  | Write (name : GoString) (data : Bytes) (perm : FileMode)
  | Mkdir (name : GoString) (perm : FileMode)
  | MkdirAll (name : GoString) (perm : FileMode)
  | Remove (name : GoString)
  | RemoveAll (name : GoString)
  | Rename (oldname newname : GoString) (overwrite : Bool)
  deriving DecidableEq

/-- The remote store together with the log of the calls made on the client,
oldest first. -/
structure World (σ : Type) where
  store : σ
  calls : List RemoteCall

/-- Records the call `c`, whose outcome on the store is `r`. -/
def World.call {σ α : Type} (w : World σ) (c : RemoteCall) (r : α × σ) : α × World σ :=
  (r.1, { store := r.2, calls := w.calls ++ [c] })

/-- The number of remote writes in a call log. -/
def remoteWrites : List RemoteCall → Nat
  | [] => 0
  | .Write _ _ _ :: cs => remoteWrites cs + 1
  | _ :: cs => remoteWrites cs

/-! ## The filesystem adapter and the file handles (`driver.go`) -/

/-- The struct `NextCloudFS` (its logger is not modelled). -/
structure NextCloudFS (σ S : Type) where
  client : Client σ S
  username : GoString
  remoteAddr : GoString

/-- The struct `readOnlyFile`. -/
structure readOnlyFile (S : Type) where
  stream : S
  name : GoString

/-- The struct `writeOnlyFile`. -/
structure writeOnlyFile (σ S : Type) where
  fs : NextCloudFS σ S
  name : GoString
  buffer : Bytes

/-- An `afero.File` returned by the adapter: one of the two handle types. -/
inductive File (σ S : Type) where
  | readOnly (f : readOnlyFile S)
  | writeOnly (f : writeOnlyFile σ S)

section Adapter

variable {σ S : Type}

/-- Method `NextCloudFS.Name`. -/
def NextCloudFS.Name (_fs : NextCloudFS σ S) : GoString := ascii "NextCloudFS"

/-- Method `NextCloudFS.Stat`. After `if err != nil { return nil, err }` the
struct literal calls `info.Name()` first, which panics (nil dereference) when
the client returned a nil entry together with a nil error. -/
def NextCloudFS.Stat (fs : NextCloudFS σ S) (name : GoString) (w : World σ) :
    Outcome nextcloudFileInfo × World σ :=
  match w.call (.Stat name) (fs.client.Stat name w.store) with
  | ((_, some err), w) => (.error err, w)
  | ((none, none), w) => (.panic, w)
  | ((some info, none), w) =>
    (.ok { name := TrimSuffix (Base info.Name) (ascii "/")
           size := info.Size
           mode := info.Mode
           modTime := info.ModTime
           isDir := info.IsDir }, w)

/-- Method `NextCloudFS.ReadDir`: the `for ... range files` loop appends one
translated entry per remote entry. -/
def NextCloudFS.ReadDir (fs : NextCloudFS σ S) (name : GoString) (w : World σ) :
    Except GoError (List nextcloudFileInfo) × World σ :=
  match w.call (.ReadDir name) (fs.client.ReadDir name w.store) with
  | (.error err, w) => (.error err, w)
  | (.ok files, w) =>
    let fileInfos := files.foldl (fun fileInfos file =>
      fileInfos ++ [{ name := TrimSuffix (Base file.Name) (ascii "/")
                      size := file.Size
                      mode := file.Mode
                      modTime := file.ModTime
                      isDir := file.IsDir }]) []
    (.ok fileInfos, w)

/-- Method `NextCloudFS.OpenFile`; `&&&` on Go's `int` is `Int.land`. -/
def NextCloudFS.OpenFile (fs : NextCloudFS σ S) (name : GoString) (flag : Int)
    (_perm : FileMode) (w : World σ) : Except GoError (File σ S) × World σ :=
  if Int.land flag O_RDONLY ≠ 0 then
    match w.call (.ReadStream name) (fs.client.ReadStream name w.store) with
    | (.error err, w) => (.error err, w)
    | (.ok stream, w) => (.ok (.readOnly { stream := stream, name := name }), w)
  else if Int.land flag O_WRONLY ≠ 0 ∨ Int.land flag O_CREATE ≠ 0 then
    (.ok (.writeOnly { fs := fs, name := name, buffer := [] }), w)
  else
    (.error (errors.New "unsupported file open mode"), w)

/-- Method `NextCloudFS.Mkdir`. -/
def NextCloudFS.Mkdir (fs : NextCloudFS σ S) (name : GoString) (perm : FileMode)
    (w : World σ) : Option GoError × World σ :=
  w.call (.Mkdir name perm) (fs.client.Mkdir name perm w.store)

/-- Method `NextCloudFS.MkdirAll`. -/
def NextCloudFS.MkdirAll (fs : NextCloudFS σ S) (path : GoString) (perm : FileMode)
    (w : World σ) : Option GoError × World σ :=
  w.call (.MkdirAll path perm) (fs.client.MkdirAll path perm w.store)

/-- Method `NextCloudFS.Remove`. -/
def NextCloudFS.Remove (fs : NextCloudFS σ S) (name : GoString) (w : World σ) :
    Option GoError × World σ :=
  w.call (.Remove name) (fs.client.Remove name w.store)

/-- Method `NextCloudFS.RemoveAll`. -/
def NextCloudFS.RemoveAll (fs : NextCloudFS σ S) (path : GoString) (w : World σ) :
    Option GoError × World σ :=
  w.call (.RemoveAll path) (fs.client.RemoveAll path w.store)

/-- Method `NextCloudFS.Rename`. -/
def NextCloudFS.Rename (fs : NextCloudFS σ S) (oldname newname : GoString) (w : World σ) :
    Option GoError × World σ :=
  w.call (.Rename oldname newname false) (fs.client.Rename oldname newname false w.store)

/-- Method `NextCloudFS.Chmod`. -/
def NextCloudFS.Chmod (_fs : NextCloudFS σ S) (_name : GoString) (_mode : FileMode)
    (w : World σ) : Option GoError × World σ :=
  (some (errors.New "chmod not supported"), w)

/-- Method `NextCloudFS.Chtimes`. -/
def NextCloudFS.Chtimes (_fs : NextCloudFS σ S) (_name : GoString) (_atime _mtime : Time)
    (w : World σ) : Option GoError × World σ :=
  (some (errors.New "chtimes not supported"), w)

/-- Method `NextCloudFS.Chown`. -/
def NextCloudFS.Chown (_fs : NextCloudFS σ S) (_name : GoString) (_uid _gid : Int)
    (w : World σ) : Option GoError × World σ :=
  (some (errors.New "chown not supported"), w)

/-- Method `NextCloudFS.Create`. -/
def NextCloudFS.Create (fs : NextCloudFS σ S) (name : GoString) (w : World σ) :
    Except GoError (File σ S) × World σ :=
  fs.OpenFile name (Int.lor (Int.lor O_RDWR O_CREATE) O_TRUNC) 0o644 w

/-- Method `NextCloudFS.Open`. -/
def NextCloudFS.Open (fs : NextCloudFS σ S) (name : GoString) (w : World σ) :
    Except GoError (File σ S) × World σ :=
  fs.OpenFile name O_RDONLY 0 w

/-- Method `NextCloudFS.GetHandle`. -/
def NextCloudFS.GetHandle (fs : NextCloudFS σ S) (name : GoString) (flag : Int)
    (_offset : Int) (w : World σ) : Except GoError (File σ S) × World σ :=
  fs.OpenFile name flag 0o644 w

/-! ### The read handle

A method takes the handle and the world and returns its Go result, the
handle after the call and the world after the call. -/

/-- The methods of an open read stream (`io.ReadCloser`): `Read(p)` gives the
bytes stored into `p`, their number and an error; `Close()` gives an error. -/
structure ReadCloser (S : Type) where
  Read : S → Bytes → (Bytes × Int × Option GoError) × S
  Close : S → Option GoError × S

/-- Method `readOnlyFile.Read`. -/
def readOnlyFile.Read (rc : ReadCloser S) (f : readOnlyFile S) (p : Bytes) (w : World σ) :
    (Bytes × Int × Option GoError) × readOnlyFile S × World σ :=
  let r := rc.Read f.stream p
  (r.1, { f with stream := r.2 }, w)

/-- Method `readOnlyFile.Close`. -/
def readOnlyFile.Close (rc : ReadCloser S) (f : readOnlyFile S) (w : World σ) :
    Option GoError × readOnlyFile S × World σ :=
  let r := rc.Close f.stream
  (r.1, { f with stream := r.2 }, w)

/-- Method `readOnlyFile.Readdir`. -/
def readOnlyFile.Readdir (f : readOnlyFile S) (_count : Int) (w : World σ) :
    Except GoError (List nextcloudFileInfo) × readOnlyFile S × World σ :=
  (.error (errors.New "readdir not supported on file"), f, w)

/-- Method `readOnlyFile.Readdirnames`. -/
def readOnlyFile.Readdirnames (f : readOnlyFile S) (_n : Int) (w : World σ) :
    Except GoError (List GoString) × readOnlyFile S × World σ :=
  (.error (errors.New "readdirnames not supported on file"), f, w)

/-- Method `readOnlyFile.Stat`. -/
def readOnlyFile.Stat (f : readOnlyFile S) (w : World σ) :
    Except GoError nextcloudFileInfo × readOnlyFile S × World σ :=
  (.error (errors.New "stat not supported on stream"), f, w)

/-- Method `readOnlyFile.Write`. -/
def readOnlyFile.Write (f : readOnlyFile S) (_p : Bytes) (w : World σ) :
    (Int × Option GoError) × readOnlyFile S × World σ :=
  ((0, some (errors.New "write not supported on read-only file")), f, w)

/-- Method `readOnlyFile.Seek`. -/
def readOnlyFile.Seek (f : readOnlyFile S) (_offset : Int) (_whence : Int) (w : World σ) :
    (Int × Option GoError) × readOnlyFile S × World σ :=
  ((0, some (errors.New "seek not supported")), f, w)

/-- Method `readOnlyFile.ReadAt`. -/
def readOnlyFile.ReadAt (f : readOnlyFile S) (_p : Bytes) (_off : Int) (w : World σ) :
    (Int × Option GoError) × readOnlyFile S × World σ :=
  ((0, some (errors.New "readat not supported on stream")), f, w)

/-- Method `readOnlyFile.WriteAt`. -/
def readOnlyFile.WriteAt (f : readOnlyFile S) (_p : Bytes) (_off : Int) (w : World σ) :
    (Int × Option GoError) × readOnlyFile S × World σ :=
  ((0, some (errors.New "writeat not supported on read-only file")), f, w)

/-- Method `readOnlyFile.Name`. -/
def readOnlyFile.Name (f : readOnlyFile S) : GoString := f.name

/-- Method `readOnlyFile.Sync`. -/
def readOnlyFile.Sync (f : readOnlyFile S) (w : World σ) :
    Option GoError × readOnlyFile S × World σ :=
  (none, f, w)

/-- Method `readOnlyFile.Truncate`. -/
def readOnlyFile.Truncate (f : readOnlyFile S) (_size : Int) (w : World σ) :
    Option GoError × readOnlyFile S × World σ :=
  (some (errors.New "truncate not supported on read-only file"), f, w)

/-- Method `readOnlyFile.WriteString`. -/
def readOnlyFile.WriteString (f : readOnlyFile S) (_s : GoString) (w : World σ) :
    (Int × Option GoError) × readOnlyFile S × World σ :=
  ((0, some (errors.New "write not supported on read-only file")), f, w)

/-! ### The write handle -/

/-- Method `writeOnlyFile.Read`. -/
def writeOnlyFile.Read (f : writeOnlyFile σ S) (_p : Bytes) (w : World σ) :
    (Int × Option GoError) × writeOnlyFile σ S × World σ :=
  ((0, some (errors.New "read not supported on write-only file")), f, w)

/-- Method `writeOnlyFile.Write`. -/
def writeOnlyFile.Write (f : writeOnlyFile σ S) (p : Bytes) (w : World σ) :
    (Int × Option GoError) × writeOnlyFile σ S × World σ :=
  (((p.length : Int), none), { f with buffer := f.buffer ++ p }, w)

/-- Method `writeOnlyFile.Seek`. -/
def writeOnlyFile.Seek (f : writeOnlyFile σ S) (_offset : Int) (_whence : Int) (w : World σ) :
    (Int × Option GoError) × writeOnlyFile σ S × World σ :=
  ((0, some (errors.New "seek not supported")), f, w)

/-- Method `writeOnlyFile.ReadAt`. -/
def writeOnlyFile.ReadAt (f : writeOnlyFile σ S) (_p : Bytes) (_off : Int) (w : World σ) :
    (Int × Option GoError) × writeOnlyFile σ S × World σ :=
  ((0, some (errors.New "readat not supported on write-only file")), f, w)

/-- Method `writeOnlyFile.WriteAt`. -/
def writeOnlyFile.WriteAt (f : writeOnlyFile σ S) (_p : Bytes) (_off : Int) (w : World σ) :
    (Int × Option GoError) × writeOnlyFile σ S × World σ :=
  ((0, some (errors.New "writeat not supported")), f, w)

/-- Method `writeOnlyFile.Close`. -/
def writeOnlyFile.Close (f : writeOnlyFile σ S) (w : World σ) :
    Option GoError × writeOnlyFile σ S × World σ :=
  if f.buffer.length = 0 then (none, f, w)
  else
    match w.call (.Write f.name f.buffer 0o644) (f.fs.client.Write f.name f.buffer 0o644 w.store) with
    | (some err, w) => (some (fmt.Errorf "failed to write to nextcloud: " err), f, w)
    | (none, w) => (none, f, w)

/-- Method `writeOnlyFile.Name`. -/
def writeOnlyFile.Name (f : writeOnlyFile σ S) : GoString := f.name

/-- Method `writeOnlyFile.Readdir`. -/
def writeOnlyFile.Readdir (f : writeOnlyFile σ S) (_count : Int) (w : World σ) :
    Except GoError (List nextcloudFileInfo) × writeOnlyFile σ S × World σ :=
  (.error (errors.New "readdir not supported on file"), f, w)

/-- Method `writeOnlyFile.Readdirnames`. -/
def writeOnlyFile.Readdirnames (f : writeOnlyFile σ S) (_n : Int) (w : World σ) :
    Except GoError (List GoString) × writeOnlyFile σ S × World σ :=
  (.error (errors.New "readdirnames not supported on file"), f, w)

/-- Method `writeOnlyFile.Stat`. -/
def writeOnlyFile.Stat (f : writeOnlyFile σ S) (w : World σ) :
    Except GoError nextcloudFileInfo × writeOnlyFile σ S × World σ :=
  (.error (errors.New "stat not supported on stream"), f, w)

/-- Method `writeOnlyFile.Sync`. -/
def writeOnlyFile.Sync (f : writeOnlyFile σ S) (w : World σ) :
    Option GoError × writeOnlyFile σ S × World σ :=
  (none, f, w)

/-- Method `writeOnlyFile.Truncate`. -/
def writeOnlyFile.Truncate (f : writeOnlyFile σ S) (_size : Int) (w : World σ) :
    Option GoError × writeOnlyFile σ S × World σ :=
  (some (errors.New "truncate not supported"), f, w)

/-- Method `writeOnlyFile.WriteString`: `f.Write([]byte(s))`. -/
def writeOnlyFile.WriteString (f : writeOnlyFile σ S) (s : GoString) (w : World σ) :
    (Int × Option GoError) × writeOnlyFile σ S × World σ :=
  f.Write s w

/-! ### Sequences of calls on a write handle -/

/-- A method call on a write handle, with its arguments. -/
inductive WriteHandleOp where
  | Read (p : Bytes)
  | Write (p : Bytes)
  | Seek (offset whence : Int)
  | ReadAt (p : Bytes) (off : Int)
  | WriteAt (p : Bytes) (off : Int)
  | Close
  | Readdir (count : Int)
  | Readdirnames (n : Int)
  | Stat
  | Sync
  | Truncate (size : Int)
  | WriteString (s : GoString)
  deriving DecidableEq

/-- The handle and the world after one method call (the result is dropped). -/
def writeOnlyFile.invoke (f : writeOnlyFile σ S) (w : World σ) :
    WriteHandleOp → writeOnlyFile σ S × World σ
  | .Read p => (f.Read p w).2
  | .Write p => (f.Write p w).2
  | .Seek offset whence => (f.Seek offset whence w).2
  | .ReadAt p off => (f.ReadAt p off w).2
  | .WriteAt p off => (f.WriteAt p off w).2
  | .Close => (f.Close w).2
  | .Readdir count => (f.Readdir count w).2
  | .Readdirnames n => (f.Readdirnames n w).2
  | .Stat => (f.Stat w).2
  | .Sync => (f.Sync w).2
  | .Truncate size => (f.Truncate size w).2
  | .WriteString s => (f.WriteString s w).2

/-- The handle and the world after a sequence of method calls, in order. -/
def writeOnlyFile.invokeAll (f : writeOnlyFile σ S) (w : World σ) :
    List WriteHandleOp → writeOnlyFile σ S × World σ
  | [] => (f, w)
  | op :: ops =>
    let r := f.invoke w op
    r.1.invokeAll r.2 ops

/-- The number of `Close` calls in a sequence of method calls. -/
def closeCalls : List WriteHandleOp → Nat
  | [] => 0
  | .Close :: ops => closeCalls ops + 1
  | _ :: ops => closeCalls ops

end Adapter

/-! ## The File Info Translator as the specification words it -/

namespace Spec

/-- The name with its trailing path separators stripped. -/
def stripTrailingSeparators (name : GoString) : GoString :=
  name.rdropWhile (fun b => b == slash)

/-- The translation of a remote metadata entry: trailing path separators
stripped from the name; size, mode, modification time and directory flag
passed through. -/
def translate (e : RemoteInfo) : nextcloudFileInfo :=
  { name := stripTrailingSeparators e.Name
    size := e.Size
    mode := e.Mode
    modTime := e.ModTime
    isDir := e.IsDir }

end Spec

/-! ## A sample remote store, the concrete input of the examples -/

/-- A remote store client over the list of the remote entries: an entry exists
when one of the list has its name; a rename onto an existing entry fails
unless overwriting is asked for; a stream is the bytes still to be read. -/
def sampleClient : Client (List RemoteInfo) Bytes where
  Stat name s :=
    match s.find? (fun e => e.Name = name) with
    | some e => ((some e, none), s)
    | none => ((none, some (errors.New "404 not found")), s)
  ReadDir _ s := (.ok s, s)
  ReadStream name s :=
    match s.find? (fun e => e.Name = name) with
    | some _ => (.ok [], s)
    | none => (.error (errors.New "404 not found"), s)
  Write name data perm s :=
    (none, s.filter (fun e => e.Name ≠ name) ++
      [{ Name := name, Size := data.length, Mode := perm, ModTime := 0, IsDir := false }])
  Mkdir name perm s :=
    (none, s ++ [{ Name := name, Size := 0, Mode := perm, ModTime := 0, IsDir := true }])
  MkdirAll name perm s :=
    (none, s ++ [{ Name := name, Size := 0, Mode := perm, ModTime := 0, IsDir := true }])
  Remove name s := (none, s.filter (fun e => e.Name ≠ name))
  RemoveAll name s := (none, s.filter (fun e => e.Name ≠ name))
  Rename oldname newname overwrite s :=
    if !overwrite && s.any (fun e => e.Name = newname) then
      (some (errors.New "412 destination exists"), s)
    else
      match s.find? (fun e => e.Name = oldname) with
      | none => (some (errors.New "404 not found"), s)
      | some e =>
        (none, s.filter (fun x => x.Name ≠ oldname ∧ x.Name ≠ newname) ++
          [{ e with Name := newname }])

/-- The sample client with every remote write failing with `err`. -/
def failingWriteClient (err : GoError) : Client (List RemoteInfo) Bytes :=
  { sampleClient with Write := fun _ _ _ s => (some err, s) }

/-- The sample client with every lookup answering with neither an entry nor an
error (a multi-status reply that holds no usable properties). -/
def nilEntryClient : Client (List RemoteInfo) Bytes :=
  { sampleClient with Stat := fun _ s => ((none, none), s) }

/-- A session whose lookups return neither an entry nor an error. -/
def nilEntryFS : NextCloudFS (List RemoteInfo) Bytes :=
  { client := nilEntryClient, username := ascii "guest", remoteAddr := ascii "192.0.2.7:40000" }

/-- A session on the sample client. -/
def sampleFS : NextCloudFS (List RemoteInfo) Bytes :=
  { client := sampleClient, username := ascii "guest", remoteAddr := ascii "192.0.2.7:40000" }

/-- A session whose remote writes fail with `err`. -/
def failingWriteFS (err : GoError) : NextCloudFS (List RemoteInfo) Bytes :=
  { client := failingWriteClient err, username := ascii "guest",
    remoteAddr := ascii "192.0.2.7:40000" }

/-- A remote store holding the file `a.txt` and the directory `sub/`. -/
def sampleStore : List RemoteInfo :=
  [{ Name := ascii "a.txt", Size := 5, Mode := 0o644, ModTime := 1700000000, IsDir := false },
   { Name := ascii "sub/", Size := 0, Mode := 0o755, ModTime := 1700000001, IsDir := true }]

/-- The sample store before any call. -/
def sampleWorld : World (List RemoteInfo) := { store := sampleStore, calls := [] }

/-! ## Lemmas on the library functions and on the handles -/

section Claims

variable {σ S : Type}

/-- Bitwise and with 0 is 0. -/
theorem land_zero_right (x : Int) : Int.land x 0 = 0 := by
  cases x with
  | ofNat m => simp [Int.land]
  | negSucc m =>
    have h : Nat.ldiff 0 m = 0 := by
      apply Nat.eq_of_testBit_eq
      intro i
      simp [Nat.testBit_ldiff]
    simp [Int.land, h]

/-- A string has the one-byte suffix `c` exactly when its last byte is `c`. -/
theorem HasSuffix_single (s : GoString) (c : Byte) :
    HasSuffix s [c] = true ↔ s.getLast? = some c := by
  rcases List.eq_nil_or_concat s with rfl | ⟨init, a, rfl⟩
  · simp [HasSuffix]
  · simp [HasSuffix]

/-- With fuel for every byte, the result of the loop does not end with a slash:
the loop has run to its end. -/
theorem stripLoop_getLast (fuel : Nat) : ∀ path : GoString, path.length ≤ fuel →
    (stripLoop fuel path).getLast? ≠ some slash := by
  induction fuel with
  | zero =>
    intro path h
    have : path = [] := List.length_eq_zero.mp (Nat.le_zero.mp h)
    subst this
    simp [stripLoop]
  | succ n ih =>
    intro path h
    unfold stripLoop
    split_ifs with hc
    · apply ih
      simp [List.length_dropLast]
      omega
    · intro hl
      apply hc
      refine ⟨?_, hl⟩
      cases path with
      | nil => simp at hl
      | cons a t => simp

/-- With fuel for every byte, the loop strips all the trailing slashes. -/
theorem stripLoop_eq (fuel : Nat) : ∀ path : GoString, path.length ≤ fuel →
    stripLoop fuel path = Spec.stripTrailingSeparators path := by
  induction fuel with
  | zero =>
    intro path h
    have : path = [] := List.length_eq_zero.mp (Nat.le_zero.mp h)
    subst this
    simp [stripLoop, Spec.stripTrailingSeparators]
  | succ n ih =>
    intro path h
    unfold stripLoop
    rcases List.eq_nil_or_concat path with rfl | ⟨init, a, rfl⟩
    · simp [Spec.stripTrailingSeparators]
    · by_cases ha : a = slash
      · subst ha
        have hl : init.length ≤ n := by simpa using h
        simp [ih init hl, Spec.stripTrailingSeparators, List.rdropWhile_concat]
      · simp [ha, Spec.stripTrailingSeparators, List.rdropWhile_concat]

/-- The scan for an absent byte returns -1. -/
theorem lastIndexBelow_absent (s : GoString) (c : Byte) (h : c ∉ s) :
    ∀ n, lastIndexBelow s c n = -1 := by
  intro n
  induction n with
  | zero => rfl
  | succ n ih =>
    unfold lastIndexBelow
    have : s[n]? ≠ some c := by
      intro hg
      exact h (List.getElem?_mem hg)
    simp [this, ih]

/-- The translated name never ends with a slash. -/
theorem TrimSuffix_Base_no_slash (p : GoString) :
    (TrimSuffix (Base p) (ascii "/")).getLast? ≠ some slash := by
  have hs : ascii "/" = [slash] := rfl
  by_cases hp : p = []
  · subst hp
    decide
  · have h1 := stripLoop_getLast p.length p (le_refl _)
    unfold Base
    simp only [hp, if_false]
    generalize stripLoop p.length p = s at h1
    generalize LastIndexByte s slash = i
    have h2 : (if i ≥ 0 then s.drop (i + 1).toNat else s).getLast? ≠ some slash := by
      split_ifs
      · rw [List.getLast?_drop]
        split_ifs
        · simp
        · exact h1
      · exact h1
    generalize (if i ≥ 0 then s.drop (i + 1).toNat else s) = r at h2
    by_cases hr : r = []
    · subst hr
      decide
    · simp only [hr, if_false]
      unfold TrimSuffix
      rw [hs]
      have : HasSuffix r [slash] = false := by
        rw [Bool.eq_false_iff]
        intro hh
        exact h2 ((HasSuffix_single r slash).mp hh)
      simp [this, h2]

/-- The translated name is the name without its trailing slashes when that is
non-empty and holds no slash. -/
theorem TrimSuffix_Base_eq_strip (p : GoString)
    (hne : Spec.stripTrailingSeparators p ≠ [])
    (hno : slash ∉ Spec.stripTrailingSeparators p) :
    TrimSuffix (Base p) (ascii "/") = Spec.stripTrailingSeparators p := by
  have hs : ascii "/" = [slash] := rfl
  have hp : p ≠ [] := by
    rintro rfl
    exact hne (by simp [Spec.stripTrailingSeparators])
  have h1 := stripLoop_getLast p.length p (le_refl _)
  have h2 := stripLoop_eq p.length p (le_refl _)
  unfold Base
  simp only [hp, if_false]
  rw [h2] at h1 ⊢
  generalize Spec.stripTrailingSeparators p = s at *
  have hi : LastIndexByte s slash = -1 := lastIndexBelow_absent s slash hno _
  simp only [hi]
  have : ¬ ((-1 : Int) ≥ 0) := by decide
  simp only [this, if_false, hne]
  unfold TrimSuffix
  rw [hs]
  have : HasSuffix s [slash] = false := by
    rw [Bool.eq_false_iff]
    intro hh
    exact h1 ((HasSuffix_single s slash).mp hh)
  simp [this]

/-- Appending one translated element per step is a map. -/
theorem foldl_append_singleton {α β : Type} (g : α → β) (l : List α) (init : List β) :
    l.foldl (fun acc x => acc ++ [g x]) init = init ++ l.map g := by
  induction l generalizing init with
  | nil => simp
  | cons a t ih => simp [ih]

/-- The behaviour of `Close` in one equation. -/
theorem Close_eq (f : writeOnlyFile σ S) (w : World σ) :
    f.Close w =
      if f.buffer = [] then (none, f, w)
      else
        ((f.fs.client.Write f.name f.buffer 0o644 w.store).1.map
            (fmt.Errorf "failed to write to nextcloud: "), f,
          { store := (f.fs.client.Write f.name f.buffer 0o644 w.store).2
            calls := w.calls ++ [RemoteCall.Write f.name f.buffer 0o644] }) := by
  unfold writeOnlyFile.Close World.call
  by_cases hb : f.buffer = []
  · simp [hb]
  · have hl : f.buffer.length ≠ 0 := fun h => hb (List.length_eq_zero.mp h)
    simp only [hl, hb, if_false]
    rcases hr : f.fs.client.Write f.name f.buffer 0o644 w.store with ⟨_ | e, s⟩ <;> rfl

/-- A sequence of writes appends the concatenation and leaves the world. -/
theorem invokeAll_writes (ps : List Bytes) : ∀ (f : writeOnlyFile σ S) (w : World σ),
    f.invokeAll w (ps.map WriteHandleOp.Write) = ({ f with buffer := f.buffer ++ ps.flatten }, w) := by
  induction ps with
  | nil => intro f w; simp [writeOnlyFile.invokeAll]
  | cons p ps ih =>
    intro f w
    simp [writeOnlyFile.invokeAll, writeOnlyFile.invoke, writeOnlyFile.Write, ih, List.append_assoc]

/-- The number of remote writes of a concatenated log. -/
theorem remoteWrites_append (xs ys : List RemoteCall) :
    remoteWrites (xs ++ ys) = remoteWrites xs + remoteWrites ys := by
  induction xs with
  | nil => simp [remoteWrites]
  | cons c cs ih =>
    cases c <;> simp [remoteWrites, ih]
    omega

/-- One `Close` keeps the handle and adds at most one remote write. -/
theorem remoteWrites_Close (f : writeOnlyFile σ S) (w : World σ) :
    (f.Close w).2.1 = f ∧
    remoteWrites (f.Close w).2.2.calls ≤ remoteWrites w.calls + 1 := by
  rw [Close_eq]
  split_ifs
  · simp
  · simp [remoteWrites_append, remoteWrites]

/-- One method call adds at most one remote write, and none unless it is `Close`. -/
theorem remoteWrites_invoke (f : writeOnlyFile σ S) (w : World σ) (op : WriteHandleOp) :
    remoteWrites (f.invoke w op).2.calls ≤ remoteWrites w.calls + closeCalls [op] := by
  cases op <;>
    first
    | exact (remoteWrites_Close f w).2
    | exact Nat.le_refl _

/-- The number of `Close` calls of a non-empty sequence. -/
theorem closeCalls_cons (op : WriteHandleOp) (ops : List WriteHandleOp) :
    closeCalls (op :: ops) = closeCalls [op] + closeCalls ops := by
  cases op <;> simp [closeCalls]
  omega

/-- The translated name has no slash suffix. -/
theorem name_no_trailing_slash (p : GoString) :
    HasSuffix (TrimSuffix (Base p) (ascii "/")) (ascii "/") = false := by
  rw [Bool.eq_false_iff]
  intro h
  exact TrimSuffix_Base_no_slash p ((HasSuffix_single _ slash).mp h)

/-! ## The claims -/

/-- C1 (the code departs from the claim): `os.O_RDONLY` is 0, so the test
`flag&os.O_RDONLY != 0` of `OpenFile` is never true. For every session, path and
world, `Open(path)` and `GetHandle(path, O_RDONLY, offset)` make no remote call
and fail with "unsupported file open mode"; so does `Open("a.txt")` on the
sample store, where the remote read stream of `a.txt` opens. -/
theorem Open_returns_unsupported :
    (∀ (σ S : Type) (fs : NextCloudFS σ S) (name : GoString) (w : World σ),
      fs.Open name w = (.error (errors.New "unsupported file open mode"), w) ∧
      ∀ offset : Int, fs.GetHandle name O_RDONLY offset w =
        (.error (errors.New "unsupported file open mode"), w)) ∧
    (sampleClient.ReadStream (ascii "a.txt") sampleStore).1 = .ok [] ∧
    sampleFS.Open (ascii "a.txt") sampleWorld =
      (.error (errors.New "unsupported file open mode"), sampleWorld) := by
  refine ⟨?_, rfl, rfl⟩
  intro σ S fs name w
  have h1 : Int.land 0 O_WRONLY = 0 := by decide
  have h2 : Int.land 0 O_CREATE = 0 := by decide
  constructor
  · simp [NextCloudFS.Open, NextCloudFS.OpenFile, O_RDONLY, land_zero_right, h1, h2]
  · intro offset
    simp [NextCloudFS.GetHandle, NextCloudFS.OpenFile, O_RDONLY, land_zero_right, h1, h2]

/-- C2: every `Write(p)` returns `len(p)` and no error, appends `p` to the
buffer and leaves the world (store and call log) as it was; and for a handle
with an empty buffer and writes `p1..pn` whose concatenation is non-empty, the
world after the writes is unchanged and `Close` adds to the call log exactly
one remote write, to the path of the handle, with payload `p1 ++ ... ++ pn`:
the store after `Close` is the store that this remote write leaves, and
`Close` returns nil when the remote write does and its wrapped error
otherwise. -/
theorem Close_after_writes (f : writeOnlyFile σ S) (w : World σ) (ps : List Bytes)
    (hfresh : f.buffer = []) (hne : ps.flatten ≠ []) :
    (∀ (g : writeOnlyFile σ S) (v : World σ) (p : Bytes),
      g.Write p v = (((p.length : Int), none), { g with buffer := g.buffer ++ p }, v)) ∧
    (f.invokeAll w (ps.map WriteHandleOp.Write)).2 = w ∧
    (((f.invokeAll w (ps.map WriteHandleOp.Write)).1.Close
        (f.invokeAll w (ps.map WriteHandleOp.Write)).2).2.2.calls =
      w.calls ++ [RemoteCall.Write f.name ps.flatten 0o644]) ∧
    (f.invokeAll w (ps.map WriteHandleOp.Write)).1 = { f with buffer := ps.flatten } ∧
    ((f.invokeAll w (ps.map WriteHandleOp.Write)).1.Close
        (f.invokeAll w (ps.map WriteHandleOp.Write)).2 =
      ((f.fs.client.Write f.name ps.flatten 0o644 w.store).1.map
          (fmt.Errorf "failed to write to nextcloud: "),
        { f with buffer := ps.flatten },
        { store := (f.fs.client.Write f.name ps.flatten 0o644 w.store).2
          calls := w.calls ++ [RemoteCall.Write f.name ps.flatten 0o644] })) := by
  refine ⟨fun g v p => rfl, ?_, ?_, ?_, ?_⟩
  · rw [invokeAll_writes]
  · rw [invokeAll_writes, Close_eq]
    simp [hfresh, hne]
  · rw [invokeAll_writes]
    simp [hfresh]
  · rw [invokeAll_writes, Close_eq]
    simp [hfresh, hne]

/-- C2 at the writes "hello" then "world" on a fresh handle over the sample
store: `Close` issues the single remote write of "helloworld", returns nil,
and the store after it is the one that write leaves, holding the new file of
10 bytes. -/
theorem Close_after_writes_witness :
    (⟨sampleFS, ascii "/greeting.txt", []⟩ : writeOnlyFile (List RemoteInfo) Bytes).buffer = [] ∧
    [ascii "hello", ascii "world"].flatten ≠ [] ∧
    ((⟨sampleFS, ascii "/greeting.txt", []⟩ : writeOnlyFile (List RemoteInfo) Bytes).invokeAll
        sampleWorld [.Write (ascii "hello"), .Write (ascii "world")]).1.Close
      ((⟨sampleFS, ascii "/greeting.txt", []⟩ : writeOnlyFile (List RemoteInfo) Bytes).invokeAll
        sampleWorld [.Write (ascii "hello"), .Write (ascii "world")]).2 =
      (none, ⟨sampleFS, ascii "/greeting.txt", ascii "helloworld"⟩,
        { store := sampleStore ++
            [{ Name := ascii "/greeting.txt", Size := 10, Mode := 0o644, ModTime := 0,
               IsDir := false }]
          calls := [RemoteCall.Write (ascii "/greeting.txt") (ascii "helloworld") 0o644] }) :=
  ⟨rfl, by decide,
    (Close_after_writes ⟨sampleFS, ascii "/greeting.txt", []⟩ sampleWorld
      [ascii "hello", ascii "world"] rfl (by decide)).2.2.2.2.trans rfl⟩

/-- C3: `Close` on a write handle whose buffer is empty returns no error and
leaves the handle and the world (remote store and call log) as they were; and
a handle opened for writing, by `OpenFile` with the write-only or the create
bit or by `Create`, and closed at once leaves the world as it was before the
handle was opened. -/
theorem Close_empty_no_remote_call (f : writeOnlyFile σ S) (w : World σ)
    (hempty : f.buffer = []) :
    f.Close w = (none, f, w) ∧
    (∀ (fs : NextCloudFS σ S) (name : GoString) (flag : Int) (perm : FileMode),
      Int.land flag O_WRONLY ≠ 0 ∨ Int.land flag O_CREATE ≠ 0 →
      ∃ g : writeOnlyFile σ S, fs.OpenFile name flag perm w = (.ok (.writeOnly g), w) ∧
        g.Close w = (none, g, w)) ∧
    (∀ (fs : NextCloudFS σ S) (name : GoString),
      ∃ g : writeOnlyFile σ S, fs.Create name w = (.ok (.writeOnly g), w) ∧
        g.Close w = (none, g, w)) := by
  have h0 : Int.land (Int.lor (Int.lor O_RDWR O_CREATE) O_TRUNC) O_CREATE ≠ 0 := by decide
  refine ⟨?_, ?_, ?_⟩
  · rw [Close_eq]
    simp [hempty]
  · intro fs name flag perm hflag
    refine ⟨{ fs := fs, name := name, buffer := [] }, ?_, ?_⟩
    · simp [NextCloudFS.OpenFile, O_RDONLY, land_zero_right, hflag]
    · rw [Close_eq]
      simp
  · intro fs name
    refine ⟨{ fs := fs, name := name, buffer := [] }, ?_, ?_⟩
    · simp [NextCloudFS.Create, NextCloudFS.OpenFile, O_RDONLY, land_zero_right, h0]
    · rw [Close_eq]
      simp

/-- C3 at a handle on `/empty.txt` that received no write. -/
theorem Close_empty_no_remote_call_witness :
    (⟨sampleFS, ascii "/empty.txt", []⟩ : writeOnlyFile (List RemoteInfo) Bytes).buffer = [] ∧
    (⟨sampleFS, ascii "/empty.txt", []⟩ : writeOnlyFile (List RemoteInfo) Bytes).Close sampleWorld =
      (none, ⟨sampleFS, ascii "/empty.txt", []⟩, sampleWorld) :=
  ⟨rfl, (Close_empty_no_remote_call ⟨sampleFS, ascii "/empty.txt", []⟩ sampleWorld rfl).1⟩

/-- C4 fails as stated: after `Write("a")`, `Close`, `Close` the handle has
issued two remote writes (`Close` neither empties the buffer nor marks the
handle closed). -/
theorem two_Close_calls_two_remote_writes :
    remoteWrites
      ((⟨sampleFS, ascii "/a.txt", []⟩ : writeOnlyFile (List RemoteInfo) Bytes).invokeAll sampleWorld
        [.Write (ascii "a"), .Close, .Close]).2.calls = 2 ∧
    ¬ remoteWrites
      ((⟨sampleFS, ascii "/a.txt", []⟩ : writeOnlyFile (List RemoteInfo) Bytes).invokeAll sampleWorld
        [.Write (ascii "a"), .Close, .Close]).2.calls ≤ 1 := by
  decide

/-- C4 as amended: over every sequence of method calls on a write handle, the
number of remote writes grows by at most the number of `Close` calls in the
sequence; a handle closed at most once issues at most one remote write. -/
theorem remoteWrites_le_closeCalls (ops : List WriteHandleOp) :
    ∀ (f : writeOnlyFile σ S) (w : World σ),
      remoteWrites (f.invokeAll w ops).2.calls ≤ remoteWrites w.calls + closeCalls ops := by
  induction ops with
  | nil => intro f w; simp [writeOnlyFile.invokeAll, closeCalls]
  | cons op ops ih =>
    intro f w
    have h1 := remoteWrites_invoke f w op
    have h2 := ih (f.invoke w op).1 (f.invoke w op).2
    rw [closeCalls_cons]
    simp only [writeOnlyFile.invokeAll]
    omega

/-- C5 fails as stated: when the remote write fails with the error
"507 insufficient storage", `Close` returns another error value, whose message
is "failed to write to nextcloud: 507 insufficient storage". -/
theorem Close_error_is_not_the_remote_error :
    (failingWriteClient (errors.New "507 insufficient storage")).Write (ascii "/a.txt") (ascii "a")
        0o644 sampleStore = (some (errors.New "507 insufficient storage"), sampleStore) ∧
    ((⟨failingWriteFS (errors.New "507 insufficient storage"), ascii "/a.txt", ascii "a"⟩ :
        writeOnlyFile (List RemoteInfo) Bytes).Close sampleWorld).1 =
      some (GoError.wrapError (ascii "failed to write to nextcloud: 507 insufficient storage")
        (errors.New "507 insufficient storage")) ∧
    ((⟨failingWriteFS (errors.New "507 insufficient storage"), ascii "/a.txt", ascii "a"⟩ :
        writeOnlyFile (List RemoteInfo) Bytes).Close sampleWorld).1 ≠
      some (errors.New "507 insufficient storage") := by
  refine ⟨rfl, rfl, ?_⟩
  decide

/-- C5 as amended: `Close` returns an error if and only if the buffer is
non-empty and the remote write fails; the error returned then wraps the remote
error (`%w`), with the message "failed to write to nextcloud: " followed by
the message of the remote error, and that remote write is the one call made. -/
theorem Close_error_iff (f : writeOnlyFile σ S) (w : World σ) :
    ((f.Close w).1 ≠ none ↔
      f.buffer ≠ [] ∧ (f.fs.client.Write f.name f.buffer 0o644 w.store).1 ≠ none) ∧
    (∀ err : GoError, f.buffer ≠ [] →
      (f.fs.client.Write f.name f.buffer 0o644 w.store).1 = some err →
      (f.Close w).1 =
          some (GoError.wrapError (ascii "failed to write to nextcloud: " ++ err.Error) err) ∧
        (f.Close w).2.2.calls = w.calls ++ [RemoteCall.Write f.name f.buffer 0o644]) := by
  rw [Close_eq]
  by_cases hb : f.buffer = []
  · simp [hb]
  · simp only [hb, if_false, not_false_eq_true, true_and, ne_eq]
    constructor
    · cases (f.fs.client.Write f.name f.buffer 0o644 w.store).1 <;> simp
    · intro err _ he
      simp [he, fmt.Errorf]

/-- C5 as amended, at a remote write failing with "507 insufficient storage". -/
theorem Close_error_iff_witness :
    ((⟨failingWriteFS (errors.New "507 insufficient storage"), ascii "/a.txt", ascii "a"⟩ :
        writeOnlyFile (List RemoteInfo) Bytes).Close sampleWorld).1 =
      some (GoError.wrapError (ascii "failed to write to nextcloud: " ++
        (errors.New "507 insufficient storage").Error) (errors.New "507 insufficient storage")) :=
  ((Close_error_iff ⟨failingWriteFS (errors.New "507 insufficient storage"), ascii "/a.txt",
      ascii "a"⟩ sampleWorld).2 (errors.New "507 insufficient storage") (by decide) rfl).1

/-- C6 fails as stated: when the remote lookup returns neither an entry nor an
error, so that it reports no failure, `Stat` makes the remote call and then
panics on the nil entry: it returns neither a file info nor an error. -/
theorem Stat_panics_on_nil_entry :
    nilEntryFS.client.Stat (ascii "a.txt") sampleWorld.store = ((none, none), sampleStore) ∧
    nilEntryFS.Stat (ascii "a.txt") sampleWorld =
      (Outcome.panic,
        { store := sampleStore, calls := [RemoteCall.Stat (ascii "a.txt")] }) := by
  exact ⟨rfl, rfl⟩

/-- C6 as amended: when the remote lookup returns an entry and no error,
whatever the name of the entry, `Stat` succeeds after that one remote call
with a file info whose name is `TrimSuffix(Base(name), "/")`, which does not
end with the separator, and whose size, mode, modification time and directory
flag are those of the entry; when the remote lookup returns an error, with or
without an entry, `Stat` fails with the same error; and `Stat` returns an
error only when the remote lookup returned that error. -/
theorem Stat_translates (fs : NextCloudFS σ S) (name : GoString) (w : World σ) :
    (∀ (info : RemoteInfo) (s : σ), fs.client.Stat name w.store = ((some info, none), s) →
      ∃ fi : nextcloudFileInfo,
        fs.Stat name w = (.ok fi, { store := s, calls := w.calls ++ [RemoteCall.Stat name] }) ∧
        fi.Name = TrimSuffix (Base info.Name) (ascii "/") ∧
        HasSuffix fi.Name (ascii "/") = false ∧
        fi.Size = info.Size ∧ fi.Mode = info.Mode ∧ fi.ModTime = info.ModTime ∧
        fi.IsDir = info.IsDir) ∧
    (∀ (entry : Option RemoteInfo) (err : GoError) (s : σ),
      fs.client.Stat name w.store = ((entry, some err), s) →
      fs.Stat name w = (.error err, { store := s, calls := w.calls ++ [RemoteCall.Stat name] })) ∧
    (∀ err : GoError,
      (fs.Stat name w).1 = .error err ↔ (fs.client.Stat name w.store).1.2 = some err) := by
  refine ⟨?_, ?_, ?_⟩
  · intro info s h
    refine ⟨{ name := TrimSuffix (Base info.Name) (ascii "/"), size := info.Size,
              mode := info.Mode, modTime := info.ModTime, isDir := info.IsDir },
      ?_, rfl, name_no_trailing_slash info.Name, rfl, rfl, rfl, rfl⟩
    simp [NextCloudFS.Stat, World.call, h]
  · intro entry err s h
    simp [NextCloudFS.Stat, World.call, h]
  · intro err
    rcases h : fs.client.Stat name w.store with ⟨⟨entry, e⟩, s⟩
    cases e with
    | some e' => simp [NextCloudFS.Stat, World.call, h]
    | none =>
      cases entry with
      | none => simp [NextCloudFS.Stat, World.call, h]
      | some info => simp [NextCloudFS.Stat, World.call, h]

/-- C6 as amended, on the sample store: the directory `sub/` is reported as
`sub`, a missing path fails with the remote error; and the names "/", "" and
"docs///" are translated to "", "." and "docs". -/
theorem Stat_translates_witness :
    (sampleFS.Stat (ascii "sub/") sampleWorld).1 =
      .ok { name := ascii "sub", size := 0, mode := 0o755, modTime := 1700000001, isDir := true } ∧
    (sampleFS.Stat (ascii "missing") sampleWorld).1 = .error (errors.New "404 not found") ∧
    TrimSuffix (Base (ascii "/")) (ascii "/") = ascii "" ∧
    TrimSuffix (Base (ascii "")) (ascii "/") = ascii "." ∧
    TrimSuffix (Base (ascii "docs///")) (ascii "/") = ascii "docs" := by
  have h := (Stat_translates sampleFS (ascii "missing") sampleWorld).2.1 none
    (errors.New "404 not found") sampleStore rfl
  exact ⟨rfl, by rw [h], rfl, rfl, rfl⟩

/-- C7 fails as stated: for a remote entry named "dir/a.txt" `ReadDir` returns
the name "a.txt", while the name with its trailing separators stripped is
"dir/a.txt". -/
theorem ReadDir_name_is_last_element :
    (sampleFS.ReadDir (ascii "/")
        { store := [{ Name := ascii "dir/a.txt", Size := 5, Mode := 0o644, ModTime := 0,
                      IsDir := false }], calls := [] }).1 =
      .ok [{ name := ascii "a.txt", size := 5, mode := 0o644, modTime := 0, isDir := false }] ∧
    [({ Name := ascii "dir/a.txt", Size := 5, Mode := 0o644, ModTime := 0,
        IsDir := false } : RemoteInfo)].map Spec.translate =
      [{ name := ascii "dir/a.txt", size := 5, mode := 0o644, modTime := 0, isDir := false }] ∧
    (sampleFS.ReadDir (ascii "/")
        { store := [{ Name := ascii "dir/a.txt", Size := 5, Mode := 0o644, ModTime := 0,
                      IsDir := false }], calls := [] }).1 ≠
      .ok ([({ Name := ascii "dir/a.txt", Size := 5, Mode := 0o644, ModTime := 0,
               IsDir := false } : RemoteInfo)].map Spec.translate) := by
  refine ⟨rfl, by decide, by decide⟩

/-- C7 as amended: a successful `ReadDir` makes one remote call and returns,
in the order of the remote listing, exactly one entry per remote entry, with
the name `TrimSuffix(Base(name), "/")` (the last element of the name) and the
size, mode, modification time and directory flag unchanged; the entry is the
translation the specification words whenever the name with its trailing
separators stripped is non-empty and holds no separator. -/
theorem ReadDir_translates (fs : NextCloudFS σ S) (name : GoString) (w : World σ)
    (files : List RemoteInfo) (s : σ)
    (hok : fs.client.ReadDir name w.store = (.ok files, s)) :
    ∃ infos : List nextcloudFileInfo,
      fs.ReadDir name w =
        (.ok infos, { store := s, calls := w.calls ++ [RemoteCall.ReadDir name] }) ∧
      infos.length = files.length ∧
      infos = files.map (fun e =>
        { name := TrimSuffix (Base e.Name) (ascii "/"), size := e.Size, mode := e.Mode,
          modTime := e.ModTime, isDir := e.IsDir }) ∧
      (∀ (i : Nat) (e : RemoteInfo), files[i]? = some e →
        Spec.stripTrailingSeparators e.Name ≠ [] →
        slash ∉ Spec.stripTrailingSeparators e.Name →
        infos[i]? = some (Spec.translate e)) := by
  refine ⟨_, ?_, ?_, rfl, ?_⟩
  · simp [NextCloudFS.ReadDir, World.call, hok, foldl_append_singleton]
  · simp
  · intro i e hi hne hno
    simp [hi, Spec.translate, TrimSuffix_Base_eq_strip e.Name hne hno]

/-- C7 as amended, on the remote listing `a.txt`, `sub/` (a directory): the
names returned are "a.txt" and "sub", the second a directory. -/
theorem ReadDir_translates_witness :
    sampleFS.client.ReadDir (ascii "/") sampleWorld.store = (.ok sampleStore, sampleStore) ∧
    ∃ infos : List nextcloudFileInfo,
      sampleFS.ReadDir (ascii "/") sampleWorld =
        (.ok infos, { store := sampleStore, calls := [RemoteCall.ReadDir (ascii "/")] }) ∧
      infos =
        [{ name := ascii "a.txt", size := 5, mode := 0o644, modTime := 1700000000, isDir := false },
         { name := ascii "sub", size := 0, mode := 0o755, modTime := 1700000001, isDir := true }] := by
  refine ⟨rfl, ?_⟩
  obtain ⟨infos, h1, _, h3, _⟩ :=
    ReadDir_translates sampleFS (ascii "/") sampleWorld sampleStore sampleStore rfl
  exact ⟨infos, h1, by rw [h3]; decide⟩

/-- C8: `Chmod`, `Chtimes` and `Chown`; `Seek`, `ReadAt`, `Write` and `WriteAt`
on a read handle; `Read`, `Seek`, `ReadAt`, `WriteAt` and `Truncate` on a write
handle: each returns its fixed error for every argument, handle and world, and
leaves the handle (stream, buffer) and the world (store, call log) unchanged. -/
theorem capability_errors (fs : NextCloudFS σ S) (r : readOnlyFile S) (f : writeOnlyFile σ S)
    (w : World σ) :
    (∀ (name : GoString) (mode : FileMode),
      fs.Chmod name mode w = (some (errors.New "chmod not supported"), w)) ∧
    (∀ (name : GoString) (atime mtime : Time),
      fs.Chtimes name atime mtime w = (some (errors.New "chtimes not supported"), w)) ∧
    (∀ (name : GoString) (uid gid : Int),
      fs.Chown name uid gid w = (some (errors.New "chown not supported"), w)) ∧
    (∀ (offset whence : Int),
      r.Seek offset whence w = ((0, some (errors.New "seek not supported")), r, w)) ∧
    (∀ (p : Bytes) (off : Int),
      r.ReadAt p off w = ((0, some (errors.New "readat not supported on stream")), r, w)) ∧
    (∀ (p : Bytes),
      r.Write p w = ((0, some (errors.New "write not supported on read-only file")), r, w)) ∧
    (∀ (p : Bytes) (off : Int),
      r.WriteAt p off w =
        ((0, some (errors.New "writeat not supported on read-only file")), r, w)) ∧
    (∀ (p : Bytes),
      f.Read p w = ((0, some (errors.New "read not supported on write-only file")), f, w)) ∧
    (∀ (offset whence : Int),
      f.Seek offset whence w = ((0, some (errors.New "seek not supported")), f, w)) ∧
    (∀ (p : Bytes) (off : Int),
      f.ReadAt p off w =
        ((0, some (errors.New "readat not supported on write-only file")), f, w)) ∧
    (∀ (p : Bytes) (off : Int),
      f.WriteAt p off w = ((0, some (errors.New "writeat not supported")), f, w)) ∧
    (∀ (size : Int),
      f.Truncate size w = (some (errors.New "truncate not supported"), f, w)) :=
  ⟨fun _ _ => rfl, fun _ _ _ => rfl, fun _ _ _ => rfl, fun _ _ => rfl, fun _ _ => rfl,
    fun _ => rfl, fun _ _ => rfl, fun _ => rfl, fun _ _ => rfl, fun _ _ => rfl,
    fun _ _ => rfl, fun _ => rfl⟩

/-- C9: for every flag with the write-only bit or the create bit set,
`OpenFile` makes no remote call and returns a write handle with an empty
buffer, bound to the given path; `Create(path)` is
`OpenFile(path, O_RDWR|O_CREATE|O_TRUNC, 0644)` and returns such a handle. -/
theorem OpenFile_for_write (fs : NextCloudFS σ S) (name : GoString) (flag : Int)
    (perm : FileMode) (w : World σ)
    (hflag : Int.land flag O_WRONLY ≠ 0 ∨ Int.land flag O_CREATE ≠ 0) :
    fs.OpenFile name flag perm w =
      (.ok (.writeOnly { fs := fs, name := name, buffer := [] }), w) ∧
    fs.Create name w = fs.OpenFile name (Int.lor (Int.lor O_RDWR O_CREATE) O_TRUNC) 0o644 w ∧
    fs.Create name w = (.ok (.writeOnly { fs := fs, name := name, buffer := [] }), w) := by
  have h0 : Int.land (Int.lor (Int.lor O_RDWR O_CREATE) O_TRUNC) O_CREATE ≠ 0 := by decide
  refine ⟨?_, rfl, ?_⟩
  · simp [NextCloudFS.OpenFile, O_RDONLY, land_zero_right, hflag]
  · simp [NextCloudFS.Create, NextCloudFS.OpenFile, O_RDONLY, land_zero_right, h0]

/-- C9 at the flag `O_WRONLY|O_CREATE|O_TRUNC` and the path `/new.txt`. -/
theorem OpenFile_for_write_witness :
    (Int.land (Int.lor (Int.lor O_WRONLY O_CREATE) O_TRUNC) O_WRONLY ≠ 0 ∨
      Int.land (Int.lor (Int.lor O_WRONLY O_CREATE) O_TRUNC) O_CREATE ≠ 0) ∧
    sampleFS.OpenFile (ascii "/new.txt") (Int.lor (Int.lor O_WRONLY O_CREATE) O_TRUNC) 0o644
        sampleWorld =
      (.ok (.writeOnly { fs := sampleFS, name := ascii "/new.txt", buffer := [] }), sampleWorld) :=
  ⟨by decide,
    (OpenFile_for_write sampleFS (ascii "/new.txt") (Int.lor (Int.lor O_WRONLY O_CREATE) O_TRUNC)
      0o644 sampleWorld (by decide)).1⟩

/-- C10: `Rename` makes exactly one remote call, the rename of the two paths
with overwrite `false`, and returns its result; so over a remote store whose
rename without overwrite fails when the destination is present, `Rename`
fails when the destination is present. -/
theorem Rename_overwrite_disabled (fs : NextCloudFS σ S) (oldname newname : GoString)
    (w : World σ) :
    fs.Rename oldname newname w =
      ((fs.client.Rename oldname newname false w.store).1,
        { store := (fs.client.Rename oldname newname false w.store).2
          calls := w.calls ++ [RemoteCall.Rename oldname newname false] }) ∧
    (∀ present : σ → GoString → Prop,
      (∀ (s : σ) (a b : GoString), present s b → (fs.client.Rename a b false s).1 ≠ none) →
      present w.store newname → (fs.Rename oldname newname w).1 ≠ none) := by
  refine ⟨rfl, ?_⟩
  intro present hstore hdest
  exact hstore w.store oldname newname hdest

/-- C10 on the sample store: renaming `a.txt` onto the existing `sub/` fails
after the one remote call, renaming it to the absent `b.txt` succeeds. -/
theorem Rename_overwrite_disabled_witness :
    (sampleFS.Rename (ascii "a.txt") (ascii "sub/") sampleWorld).1 ≠ none ∧
    (sampleFS.Rename (ascii "a.txt") (ascii "sub/") sampleWorld).2.calls =
      [RemoteCall.Rename (ascii "a.txt") (ascii "sub/") false] ∧
    (sampleFS.Rename (ascii "a.txt") (ascii "b.txt") sampleWorld).1 = none := by
  refine ⟨?_, rfl, rfl⟩
  refine (Rename_overwrite_disabled sampleFS (ascii "a.txt") (ascii "sub/") sampleWorld).2
    (fun s b => s.any (fun e => e.Name = b) = true) ?_ (by decide)
  intro s a b hb
  simp only [sampleFS, sampleClient]
  simp at hb
  simp [hb]

end Claims

end NextCloudFtp
